import Mathlib

/-!
# Verification of the tmx tile-map decoding core

A shallow embedding of the decoding core of the `tmx` package (file
`tmx.go`): GID resolution (`Map.DecodeGID`), bit-packed layer decoding
(`Layer.Decode`, `Data.decodeBytes`), layer classification (`getTileset`),
polygon point decoding (`Polygon.Decode`) and the orchestration
(`Map.DecodedLayers`, `Read`).

Modelling conventions:
* Byte slices are `List Nat`; unsigned 32-bit values are `Nat` (with masks
  written out explicitly where the Go code relies on fixed width).
* Go pointers `*Tileset` produced by `&m.Tilesets[i]` are modelled as the
  index `i` (`Option Nat`, `none` for the nil pointer), so Go pointer
  equality is index equality.
* The external standard-library readers (`base64.NewDecoder` composed with
  `gzip.NewReader`/`zlib.NewReader` and `ioutil.ReadAll`) are not code of
  this package; each composite pipeline is an explicit function parameter
  `gzPipe`/`zlPipe : List Nat → Except Err (List Nat)` taking the trimmed
  payload bytes to the decompressed bytes or an error.
* Layer dimensions (Go `int` XML attributes) are modelled as naturals.
* Go slices written by index are modelled as functions `Nat → Nat`
  updated pointwise.
-/

namespace Tmx

/-- The flag error values of `tmx.go` (`ErrUnsupportedEncoding`, ...),
plus propagated external errors: `ParseIntError` stands for a
`strconv.Atoi` failure (carrying the offending string) and `ExternalErr`
for an error produced by the external base64/decompression readers. -/
inductive Err where
  | UnsupportedEncoding
  | UnsupportedCompression
  | InvalidDecodedDataLen
  | InvalidGID
  | InvalidPointsField
  | ParseIntError (s : String)
  | ExternalErr (s : String)
deriving DecidableEq, Repr, Inhabited

/-- GID constants of `tmx.go`. -/
def GIDHorizontalFlip : Nat := 0x80000000

def GIDVerticalFlip : Nat := 0x40000000

def GIDDiagonalFlip : Nat := 0x20000000

def GIDFlip : Nat := GIDHorizontalFlip ||| GIDVerticalFlip ||| GIDDiagonalFlip

def GIDMask : Nat := 0x0fffffff

/-- `Tileset` models the XML `<tileset>` record.  The nested pure-metadata
members (`TileOffset`, `Grid`, properties, image, terrains, tiles,
wangsets) are structural XML transcription never read by the decoding
core and are omitted. -/
structure Tileset where
  FirstGID : Nat := 0
  Source : String := ""
  Name : String := ""
  TileWidth : Int := 0
  TileHeight : Int := 0
  Spacing : Int := 0
  Margin : Int := 0
  Tilecount : Int := 0
  Columns : Int := 0
deriving DecidableEq, Repr, Inhabited

/-- `Data` models a layer `<data>` element: encoding tag, compression tag
and raw inner bytes. -/
structure Data where
  Encoding : String := ""
  Compression : String := ""
  Bytes : List Nat := []
deriving DecidableEq, Repr, Inhabited

/-- `Layer` models a map `<layer>`.  The `Opacity float32` attribute is
pure metadata never read by the decoding core and is omitted; dimensions
are naturals. -/
structure Layer where
  ID : Nat := 0
  Name : String := ""
  Width : Nat := 0
  Height : Nat := 0
  Visible : Bool := true
  OffsetX : Int := 0
  OffsetY : Int := 0
  Data : Data := {}
deriving DecidableEq, Repr, Inhabited

/-- `Point` from `tmx.go`. -/
structure Point where
  X : Int := 0
  Y : Int := 0
deriving DecidableEq, Repr, Inhabited

/-- `Polygon` from `tmx.go`: the raw `points` attribute string. -/
structure Polygon where
  Points : String := ""
deriving DecidableEq, Repr, Inhabited

/-- `Map` models the XML `<map>`; `ObjectGroups` and properties are
structural transcription never read by the decoding core and are
omitted. -/
structure Map where
  Version : String := ""
  MapOrientation : String := ""
  MapRenderOrder : String := ""
  Width : Nat := 0
  Height : Nat := 0
  TileWidth : Nat := 0
  TileHeight : Nat := 0
  Tilesets : List Tileset := []
  Layers : List Layer := []
deriving DecidableEq, Repr, Inhabited

/-- `DecodedTile` from `tmx.go`; the `Tileset *Tileset` pointer is the
index of the tileset inside the owning `Map` (`none` = nil pointer). -/
structure DecodedTile where
  ID : Nat := 0
  Tileset : Option Nat := none
  HorizontalFlip : Bool := false
  VerticalFlip : Bool := false
  DiagonalFlip : Bool := false
  Nil : Bool := false
deriving DecidableEq, Repr, Inhabited

/-- `NilTile = DecodedTile{Nil: true}`. -/
def NilTile : DecodedTile := { Nil := true }

/-- `DecodedLayer` from `tmx.go` (`Tileset` again an index). -/
structure DecodedLayer where
  DecodedTiles : List DecodedTile := []
  Tileset : Option Nat := none
  Empty : Bool := false
deriving DecidableEq, Repr, Inhabited

/-- `gid &^ GIDFlip` on a `uint32`: and-not is conjunction with the
32-bit complement of `GIDFlip`. -/
def umaskedGID (gid : Nat) : Nat := gid &&& (0xffffffff ^^^ GIDFlip)

/-- The loop `for i := len(m.Tilesets) - 1; i >= 0; i--` of
`Map.DecodeGID`, entered with `i+1` as fuel so the current index is `i`;
running past `i = 0` is the fall-through `return NilTile, ErrInvalidGID`
(the error case). -/
def scanTilesets (ts : List Tileset) (gid umasked : Nat) : Nat → Except Err DecodedTile
  | 0 => .error .InvalidGID
  | i + 1 =>
    let t := ts.getD i default
    if t.FirstGID ≤ umasked then
      .ok { ID := umasked - t.FirstGID
            Tileset := some i
            HorizontalFlip := gid &&& GIDHorizontalFlip != 0
            VerticalFlip := gid &&& GIDVerticalFlip != 0
            DiagonalFlip := gid &&& GIDDiagonalFlip != 0
            Nil := false }
    else scanTilesets ts gid umasked i

/-- `Map.DecodeGID` from `tmx.go`. -/
def Map.DecodeGID (m : Map) (gid : Nat) : Except Err DecodedTile :=
  if gid = 0 then .ok NilTile
  else scanTilesets m.Tilesets gid (umaskedGID gid) m.Tilesets.length

/-- Go `unicode.IsSpace` restricted to single bytes, as used by
`bytes.TrimSpace`: tab, newline, vertical tab, form feed, carriage
return, space. -/
def isSpaceByte (b : Nat) : Bool := b == 9 || b == 10 || b == 11 || b == 12 || b == 13 || b == 32

/-- `bytes.TrimSpace`. -/
def trimSpace (bs : List Nat) : List Nat :=
  ((bs.dropWhile isSpaceByte).reverse.dropWhile isSpaceByte).reverse

/-- The layer-compression constants of `tmx.go`. -/
def Uncompressed : String := ""

def Gzip : String := "gzip"

def Zlib : String := "zlib"

/-- The layer-encoding constants of `tmx.go`. -/
def XMLEnc : String := ""

def CSV : String := "csv"

def Base64 : String := "base64"

/-- `Data.decodeBytes` from `tmx.go`: switch on the compression tag; the
supported branches feed the trimmed payload through the external base64 +
gzip/zlib + ReadAll pipeline (`gzPipe`/`zlPipe`); any other tag is
`ErrUnsupportedCompression`.  The declared encoding tag is never
consulted. -/
def Data.decodeBytes (gzPipe zlPipe : List Nat → Except Err (List Nat)) (d : Data) :
    Except Err (List Nat) :=
  if d.Compression = Gzip then gzPipe (trimSpace d.Bytes)
  else if d.Compression = Zlib then zlPipe (trimSpace d.Bytes)
  else .error .UnsupportedCompression

/-- Pointwise update of a `Nat → Nat` function, modelling `gids[i] = v`
on the Go slice. -/
def updateFn (g : Nat → Nat) (i v : Nat) : Nat → Nat := fun k => if k = i then v else g k

/-- The little-endian 32-bit read
`GID(b[j]) + GID(b[j+1])<<8 + GID(b[j+2])<<16 + GID(b[j+3])<<24` of
`Layer.Decode`. -/
def leGID (bs : List Nat) (j : Nat) : Nat :=
  bs.getD j 0 + (bs.getD (j + 1) 0) <<< 8 + (bs.getD (j + 2) 0) <<< 16 + (bs.getD (j + 3) 0) <<< 24

/-- `Layer.Decode` from `tmx.go`: decode the payload, check the exact
length `Width*Height*4`, then the nested row-major loop writing
`gids[y*Width+x]` while the byte cursor `j` advances by 4; the zero-filled
`make([]GID, Width*Height)` slice is the constant-zero function read back
at indices `0 .. Width*Height - 1`. -/
def Layer.Decode (gzPipe zlPipe : List Nat → Except Err (List Nat)) (l : Layer) :
    Except Err (List Nat) :=
  match l.Data.decodeBytes gzPipe zlPipe with
  | .error e => .error e
  | .ok dataBytes =>
    if dataBytes.length = l.Width * l.Height * 4 then
      let st :=
        (List.range l.Height).foldl (fun st y =>
          (List.range l.Width).foldl (fun st x =>
            (updateFn st.1 (y * l.Width + x) (leGID dataBytes st.2), st.2 + 4)) st)
          ((fun _ => 0), 0)
      .ok ((List.range (l.Width * l.Height)).map st.1)
    else .error .InvalidDecodedDataLen

/-- The inner loop of `Map.DecodedLayers`: resolve every GID of one layer
in order, appending the decoded tiles, stopping at the first error. -/
def decodeLayerTiles (m : Map) : List Nat → Except Err (List DecodedTile)
  | [] => .ok []
  | g :: rest =>
    match m.DecodeGID g with
    | .error e => .error e
    | .ok t =>
      match decodeLayerTiles m rest with
      | .error e => .error e
      | .ok ts => .ok (t :: ts)

/-- The outer loop of `Map.DecodedLayers` over `m.Layers` in document
order: decode each layer's GIDs, resolve them, wrap them in a fresh
`DecodedLayer{}` (so `Tileset` nil and `Empty` false), stopping at the
first error. -/
def decodeLayersLoop (gzPipe zlPipe : List Nat → Except Err (List Nat)) (m : Map) :
    List Layer → Except Err (List DecodedLayer)
  | [] => .ok []
  | l :: rest =>
    match l.Decode gzPipe zlPipe with
    | .error e => .error e
    | .ok gids =>
      match decodeLayerTiles m gids with
      | .error e => .error e
      | .ok tiles =>
        match decodeLayersLoop gzPipe zlPipe m rest with
        | .error e => .error e
        | .ok out => .ok ({ DecodedTiles := tiles } :: out)

/-- `Map.DecodedLayers` from `tmx.go`. -/
def Map.DecodedLayers (gzPipe zlPipe : List Nat → Except Err (List Nat)) (m : Map) :
    Except Err (List DecodedLayer) :=
  decodeLayersLoop gzPipe zlPipe m m.Layers

/-- The loop of `getTileset`, carrying the tracked `tileset *Tileset`
(an index, `none` = nil). -/
def getTilesetLoop (tiles : List DecodedTile) (tileset : Option Nat) :
    Option Nat × Bool × Bool :=
  match tiles with
  | [] =>
    match tileset with
    | none => (none, true, false)
    | some t => (some t, false, false)
  | tile :: rest =>
    if !tile.Nil then
      match tileset with
      | none => getTilesetLoop rest tile.Tileset
      | some t =>
        if some t ≠ tile.Tileset then (some t, false, true)
        else getTilesetLoop rest (some t)
    else getTilesetLoop rest tileset

/-- `getTileset` from `tmx.go`: returns
`(tileset, isEmpty, usesMultipleTilesets)`. -/
def getTileset (_m : Map) (l : DecodedLayer) : Option Nat × Bool × Bool :=
  getTilesetLoop l.DecodedTiles none

/-- Go `strings.Split` with a one-character separator, over the
character data of the string: splitting the empty string yields one
empty part, and every separator occurrence starts a new part. -/
def splitOnChar (sep : Char) : List Char → List (List Char)
  | [] => [[]]
  | c :: rest =>
    match splitOnChar sep rest, c == sep with
    | r, true => [] :: r
    | [], false => [[c]]
    | h :: t, false => (c :: h) :: t

/-- `strconv.Atoi`: optional sign followed by at least one decimal digit
(the 64-bit range check of the Go `int` is not modelled; none of the
verified properties involve out-of-range literals).  A failure carries
the offending substring, modelling the propagated `*strconv.NumError`. -/
def atoi (s : List Char) : Except Err Int :=
  let body : Int × List Char :=
    match s with
    | '-' :: rest => (-1, rest)
    | '+' :: rest => (1, rest)
    | _ => (1, s)
  if body.2 ≠ [] ∧ body.2.all Char.isDigit then
    .ok (body.1 * (body.2.foldl (fun n c => n * 10 + (c.toNat - 48)) 0 : Nat))
  else .error (.ParseIntError (String.mk s))

/-- The loop of `Polygon.Decode` over the space-separated parts: each
part must comma-split into exactly two pieces, each piece must parse as
an integer; the points are produced in input order and the first error
aborts the whole decode. -/
def decodePointsLoop : List (List Char) → Except Err (List Point)
  | [] => .ok []
  | part :: rest =>
    let coords := splitOnChar ',' part
    if coords.length ≠ 2 then .error .InvalidPointsField
    else
      match atoi (coords.getD 0 []) with
      | .error e => .error e
      | .ok x =>
        match atoi (coords.getD 1 []) with
        | .error e => .error e
        | .ok y =>
          match decodePointsLoop rest with
          | .error e => .error e
          | .ok pts => .ok ({ X := x, Y := y } :: pts)

/-- `Polygon.Decode` from `tmx.go`: `strings.Split(p.Points, " ")` then
the per-part loop. -/
def Polygon.Decode (p : Polygon) : Except Err (List Point) :=
  decodePointsLoop (splitOnChar ' ' p.Points.data)

/-- The per-part parse performed by one iteration of the
`Polygon.Decode` loop, factored out for specification: exactly two
comma pieces, else `InvalidPointsField`; then the two integer parses in
order, their errors propagating. -/
def parsePart (part : List Char) : Except Err Point :=
  let coords := splitOnChar ',' part
  if coords.length ≠ 2 then .error .InvalidPointsField
  else
    match atoi (coords.getD 0 []) with
    | .error e => .error e
    | .ok x =>
      match atoi (coords.getD 1 []) with
      | .error e => .error e
      | .ok y => .ok { X := x, Y := y }

/-- The classification loop of `Read`: each decoded layer is copied into
the local `l`, classified, and the classification written only into the
copy; the copies are discarded. -/
def classifyCopies (m : Map) (layers : List DecodedLayer) : List DecodedLayer :=
  layers.map (fun l =>
    let r := getTileset m l
    if r.2.2 then l
    else { l with Empty := r.2.1, Tileset := r.1 })

/-- `Read` from `tmx.go`, parameterised by the result of the external
XML decoder: on XML success, run `DecodedLayers`, classify each decoded
layer into a discarded local copy, and return the XML-decoded map
unchanged. -/
def Read (gzPipe zlPipe : List Nat → Except Err (List Nat))
    (xmlResult : Except Err Map) : Except Err Map :=
  match xmlResult with
  | .error e => .error e
  | .ok out =>
    match out.DecodedLayers gzPipe zlPipe with
    | .error e => .error e
    | .ok layers =>
      let _ := classifyCopies out layers
      .ok out

/-- Decidable equality of decode results, for evaluating the model on
concrete inputs. -/
instance {ε α : Type} [DecidableEq ε] [DecidableEq α] : DecidableEq (Except ε α) := fun a b =>
  match a, b with
  | .ok x, .ok y =>
    if h : x = y then .isTrue (by rw [h]) else .isFalse (by intro hh; cases hh; exact h rfl)
  | .error x, .error y =>
    if h : x = y then .isTrue (by rw [h]) else .isFalse (by intro hh; cases hh; exact h rfl)
  | .ok _, .error _ => .isFalse (by intro hh; cases hh)
  | .error _, .ok _ => .isFalse (by intro hh; cases hh)

/-- The two-tileset document of the spec's example:
`[{firstID:1},{firstID:5}]`. -/
def pairMap : Map := { Tilesets := [{ FirstGID := 1 }, { FirstGID := 5 }] }

/-- The one-tileset document `[{firstID:1}]`. -/
def soloMap : Map := { Tilesets := [{ FirstGID := 1 }] }

/-- Formalisation of claim C4's words, for comparison: a resolver
variant whose lookup value is the low 28 bits of the RID
(`gid &&& GIDMask`), the top three flag bits and bit 28 all cleared. -/
def decodeGIDLow28 (m : Map) (gid : Nat) : Except Err DecodedTile :=
  if gid = 0 then .ok NilTile
  else scanTilesets m.Tilesets gid (gid &&& GIDMask) m.Tilesets.length

/-- A constant decompression pipeline, for evaluating the decoder on
concrete inputs. -/
def constPipe (out : List Nat) : List Nat → Except Err (List Nat) := fun _ => .ok out

/-- A 1×1 gzip-tagged layer, for concrete evaluation. -/
def demoLayer : Layer := { Width := 1, Height := 1, Data := { Compression := Gzip } }

/-- A one-layer one-tileset document, for concrete evaluation. -/
def demoMap : Map := { Tilesets := [{ FirstGID := 1 }], Layers := [demoLayer] }

/-! ## Theorems -/

lemma GIDHorizontalFlip_eq : GIDHorizontalFlip = 2 ^ 31 := by norm_num [GIDHorizontalFlip]

lemma GIDVerticalFlip_eq : GIDVerticalFlip = 2 ^ 30 := by norm_num [GIDVerticalFlip]

lemma GIDDiagonalFlip_eq : GIDDiagonalFlip = 2 ^ 29 := by norm_num [GIDDiagonalFlip]

/-- A flag test `gid & 2^i != 0` is exactly bit `i` of `gid`. -/
lemma and_flag_testBit (gid i : Nat) : (gid &&& 2 ^ i != 0) = gid.testBit i := by
  rw [Nat.and_two_pow]
  cases h : gid.testBit i <;> simp [Nat.pow_eq_zero]

/-- If no index below `n` satisfies the range condition, the downward
scan falls through to `ErrInvalidGID`. -/
lemma scanTilesets_miss (ts : List Tileset) (gid u : Nat) :
    ∀ n, (∀ i, i < n → ¬ (ts.getD i default).FirstGID ≤ u) →
      scanTilesets ts gid u n = .error .InvalidGID := by
  intro n
  induction n with
  | zero => intro _; rfl
  | succ m ih =>
    intro h
    simp only [scanTilesets]
    rw [if_neg (h m (Nat.lt_succ_self m))]
    exact ih fun i hi => h i (Nat.lt_succ_of_lt hi)

/-- If `i` is the largest index below `n` satisfying the range
condition, the downward scan stops there and builds the decoded tile
from tileset `i`. -/
lemma scanTilesets_hit (ts : List Tileset) (gid u : Nat) :
    ∀ n i, i < n → (ts.getD i default).FirstGID ≤ u →
      (∀ k, i < k → k < n → ¬ (ts.getD k default).FirstGID ≤ u) →
      scanTilesets ts gid u n = .ok
        { ID := u - (ts.getD i default).FirstGID
          Tileset := some i
          HorizontalFlip := gid &&& GIDHorizontalFlip != 0
          VerticalFlip := gid &&& GIDVerticalFlip != 0
          DiagonalFlip := gid &&& GIDDiagonalFlip != 0
          Nil := false } := by
  intro n
  induction n with
  | zero => intro i hi _ _; exact absurd hi (Nat.not_lt_zero i)
  | succ m ih =>
    intro i hi hc hmax
    simp only [scanTilesets]
    by_cases hm : (ts.getD m default).FirstGID ≤ u
    · have him : i = m := by
        by_contra hne
        exact hmax m (Nat.lt_of_le_of_ne (Nat.lt_succ_iff.mp hi) hne) (Nat.lt_succ_self m) hm
      subst him
      rw [if_pos hm]
    · rw [if_neg hm]
      have him : i ≠ m := fun he => hm (he ▸ hc)
      exact ih i (Nat.lt_of_le_of_ne (Nat.lt_succ_iff.mp hi) him) hc
        fun k hk hk2 => hmax k hk (Nat.lt_succ_of_lt hk2)

/-- **C1** (GID Resolver contract): RID 0 resolves to the empty sentinel
tile; a nonzero RID is resolved by scanning the tileset sequence from
last to first for the first tileset whose `firstID` is at most the
masked identifier, yielding local index `masked - firstID` and the three
orientation flags read from bits 31/30/29 of the original RID,
independent of the matched tileset; if no tileset qualifies the resolver
fails with `InvalidGID`.  For tilesets `[{firstID:1},{firstID:5}]`,
masked RID 4 resolves to the first tileset with local index 3 and masked
RID 5 to the second with local index 0. -/
theorem decodeGID_contract (m : Map) (gid : Nat) :
    m.DecodeGID 0 = .ok NilTile
    ∧ (gid ≠ 0 →
        (∀ i, i < m.Tilesets.length → ¬ (m.Tilesets.getD i default).FirstGID ≤ umaskedGID gid) →
        m.DecodeGID gid = .error .InvalidGID)
    ∧ (gid ≠ 0 → ∀ i, i < m.Tilesets.length →
        (m.Tilesets.getD i default).FirstGID ≤ umaskedGID gid →
        (∀ k, i < k → k < m.Tilesets.length →
          ¬ (m.Tilesets.getD k default).FirstGID ≤ umaskedGID gid) →
        m.DecodeGID gid = .ok
          { ID := umaskedGID gid - (m.Tilesets.getD i default).FirstGID
            Tileset := some i
            HorizontalFlip := gid.testBit 31
            VerticalFlip := gid.testBit 30
            DiagonalFlip := gid.testBit 29
            Nil := false })
    ∧ pairMap.DecodeGID 4 = .ok { ID := 3, Tileset := some 0, Nil := false }
    ∧ pairMap.DecodeGID 5 = .ok { ID := 0, Tileset := some 1, Nil := false } := by
  refine ⟨rfl, ?_, ?_, by decide, by decide⟩
  · intro hgid h
    rw [Map.DecodeGID, if_neg hgid]
    exact scanTilesets_miss _ _ _ _ h
  · intro hgid i hi hc hmax
    rw [Map.DecodeGID, if_neg hgid,
      scanTilesets_hit m.Tilesets gid (umaskedGID gid) m.Tilesets.length i hi hc hmax]
    rw [GIDHorizontalFlip_eq, GIDVerticalFlip_eq, GIDDiagonalFlip_eq,
      and_flag_testBit, and_flag_testBit, and_flag_testBit]

/-- Witness for `decodeGID_contract`: in the two-tileset document, RID 6
resolves through the scan to the second tileset with local index 1 and
no orientation flags. -/
theorem decodeGID_contract_witness :
    pairMap.DecodeGID 6 =
      .ok { ID := 1, Tileset := some 1, HorizontalFlip := false, VerticalFlip := false,
            DiagonalFlip := false, Nil := false } := by
  have h := (decodeGID_contract pairMap 6).2.2.1 (by decide) 1 (by decide) (by decide)
    (fun k hk hk2 => absurd (Nat.lt_of_lt_of_le hk (Nat.le_of_lt_succ hk2)) (by decide))
  exact h.trans (congrArg Except.ok (by decide))

/-- Counterexample to **C4** as stated: for RID `2^28` (only the
reserved bit set, low 28 bits all zero) over tilesets `[{firstID:1}]`,
the code resolves to the tileset with local index `2^28 - 1`, while a
resolver whose lookup value were the low 28 bits (`gid &&& GIDMask = 0`)
would fail with `InvalidGID` — so a set bit 28 does participate in the
lookup value. -/
theorem mask28_counterexample :
    soloMap.DecodeGID (2 ^ 28) = .ok { ID := 2 ^ 28 - 1, Tileset := some 0, Nil := false }
    ∧ decodeGIDLow28 soloMap (2 ^ 28) = .error .InvalidGID
    ∧ (2 ^ 28) &&& GIDMask = 0 :=
  ⟨by decide, by decide, by decide⟩

/-- **C4** (amended): for every nonzero RID, the lookup value used by the
GID Resolver is the RID with the top three flip bits cleared — the low
29 bits, `gid % 2^29` — so bit 28 is preserved and participates in the
range lookup and the local tile index. -/
theorem umask_low29 (gid : Nat) :
    umaskedGID gid = gid % 2 ^ 29
    ∧ (gid ≠ 0 → ∀ m : Map,
        m.DecodeGID gid = scanTilesets m.Tilesets gid (gid % 2 ^ 29) m.Tilesets.length) := by
  have hmask : (0xffffffff ^^^ GIDFlip) = 2 ^ 29 - 1 := by decide
  have h1 : umaskedGID gid = gid % 2 ^ 29 := by
    rw [umaskedGID, hmask]
    apply Nat.eq_of_testBit_eq
    intro j
    rw [Nat.testBit_and, Nat.testBit_two_pow_sub_one, Nat.testBit_mod_two_pow]
    exact Bool.and_comm _ _
  refine ⟨h1, fun hgid m => ?_⟩
  rw [Map.DecodeGID, if_neg hgid, h1]

/-- Witness for `umask_low29`: evaluated at RID `2^28` over the
one-tileset document. -/
theorem umask_low29_witness :
    umaskedGID (2 ^ 28) = 2 ^ 28 % 2 ^ 29
    ∧ soloMap.DecodeGID (2 ^ 28) =
        scanTilesets soloMap.Tilesets (2 ^ 28) (2 ^ 28 % 2 ^ 29) soloMap.Tilesets.length :=
  ⟨(umask_low29 (2 ^ 28)).1, (umask_low29 (2 ^ 28)).2 (by decide) soloMap⟩

/-- **C7**: a layer whose declared compression tag is neither `"gzip"`
nor `"zlib"` — in particular the empty tag `Uncompressed` — fails with
`UnsupportedCompression`. -/
theorem unsupported_compression (gzPipe zlPipe : List Nat → Except Err (List Nat)) (l : Layer)
    (h1 : l.Data.Compression ≠ Gzip) (h2 : l.Data.Compression ≠ Zlib) :
    l.Decode gzPipe zlPipe = .error .UnsupportedCompression := by
  simp only [Layer.Decode, Data.decodeBytes, if_neg h1, if_neg h2]

/-- Witness for `unsupported_compression`: the `Uncompressed` (empty)
tag fails even when the pipelines would succeed. -/
theorem unsupported_compression_witness :
    Layer.Decode (constPipe []) (constPipe []) { Data := { Compression := Uncompressed } } =
      .error .UnsupportedCompression :=
  unsupported_compression (constPipe []) (constPipe [])
    { Data := { Compression := Uncompressed } } (by decide) (by decide)

/-- **C8**: when the decoded-and-decompressed payload's byte length
differs from `Width*Height*4`, `Layer.Decode` fails with the
invalid-decoded-length error (and hence returns no RIDs). -/
theorem invalid_decoded_length (gzPipe zlPipe : List Nat → Except Err (List Nat)) (l : Layer)
    (bytes : List Nat) (hok : l.Data.decodeBytes gzPipe zlPipe = .ok bytes)
    (hne : bytes.length ≠ l.Width * l.Height * 4) :
    l.Decode gzPipe zlPipe = .error .InvalidDecodedDataLen := by
  simp only [Layer.Decode, hok]
  rw [if_neg hne]

/-- Witness for `invalid_decoded_length`: a 1×1 layer whose pipeline
yields 3 bytes (`width*height*4 - 1`). -/
theorem invalid_decoded_length_witness :
    Layer.Decode (constPipe [0, 0, 0]) (constPipe [])
      { Width := 1, Height := 1, Data := { Compression := Gzip } } =
      .error .InvalidDecodedDataLen :=
  invalid_decoded_length (constPipe [0, 0, 0]) (constPipe [])
    { Width := 1, Height := 1, Data := { Compression := Gzip } } [0, 0, 0]
    (by decide) (by decide)

/-- Counterexample to **C3** as stated: a layer declaring the
unsupported `"csv"` text encoding (with empty compression tag) fails
with `UnsupportedCompression`, not with the typed `UnsupportedEncoding`
error the claim requires. -/
theorem encoding_claim_counterexample :
    Layer.Decode (constPipe []) (constPipe [])
      { Data := { Encoding := CSV, Compression := Uncompressed } } =
      .error .UnsupportedCompression
    ∧ Err.UnsupportedCompression ≠ Err.UnsupportedEncoding :=
  ⟨by decide, by decide⟩

/-- **C3** (amended): the decoder never consults the declared text
encoding — decoding is invariant under changing the encoding tag — and
it never produces `UnsupportedEncoding` itself: whenever the external
pipelines do not return that error, neither does `decodeBytes` (a
non-base-64-declared layer is processed by compression tag alone). -/
theorem encoding_ignored (gzPipe zlPipe : List Nat → Except Err (List Nat))
    (enc enc' comp : String) (bytes : List Nat) :
    Data.decodeBytes gzPipe zlPipe { Encoding := enc, Compression := comp, Bytes := bytes } =
      Data.decodeBytes gzPipe zlPipe { Encoding := enc', Compression := comp, Bytes := bytes }
    ∧ ((∀ bs, gzPipe bs ≠ .error .UnsupportedEncoding) →
        (∀ bs, zlPipe bs ≠ .error .UnsupportedEncoding) →
        Data.decodeBytes gzPipe zlPipe
          { Encoding := enc, Compression := comp, Bytes := bytes } ≠
          .error .UnsupportedEncoding) := by
  refine ⟨rfl, fun hg hz => ?_⟩
  simp only [Data.decodeBytes]
  by_cases h1 : comp = Gzip
  · rw [if_pos h1]
    exact hg _
  · rw [if_neg h1]
    by_cases h2 : comp = Zlib
    · rw [if_pos h2]
      exact hz _
    · rw [if_neg h2]
      decide

/-- Witness for `encoding_ignored`: a `"csv"`-declared gzip layer
decodes like a `"base64"`-declared one and does not raise
`UnsupportedEncoding`. -/
theorem encoding_ignored_witness :
    Data.decodeBytes (constPipe [1]) (constPipe [2])
      { Encoding := CSV, Compression := Gzip, Bytes := [] } =
      Data.decodeBytes (constPipe [1]) (constPipe [2])
        { Encoding := Base64, Compression := Gzip, Bytes := [] }
    ∧ Data.decodeBytes (constPipe [1]) (constPipe [2])
        { Encoding := CSV, Compression := Gzip, Bytes := [] } ≠
        .error .UnsupportedEncoding :=
  ⟨(encoding_ignored (constPipe [1]) (constPipe [2]) CSV Base64 Gzip []).1,
    (encoding_ignored (constPipe [1]) (constPipe [2]) CSV Base64 Gzip []).2
      (fun _ h => Except.noConfusion h) (fun _ h => Except.noConfusion h)⟩

/-- One row of the decode loop: starting from slice contents `g` and byte
cursor `j0`, the inner fold writes indices `base .. base+w-1` with the
little-endian groups read at `j0, j0+4, ...` and advances the cursor by
`4*w`. -/
lemma innerRow_fold (w : Nat) (bytes : List Nat) (base j0 : Nat) (g : Nat → Nat) :
    (List.range w).foldl (fun st x =>
        (updateFn st.1 (base + x) (leGID bytes st.2), st.2 + 4)) (g, j0) =
      (fun k => if base ≤ k ∧ k < base + w then leGID bytes (j0 + 4 * (k - base)) else g k,
        j0 + 4 * w) := by
  induction w with
  | zero =>
    simp only [List.range_zero, List.foldl_nil]
    refine Prod.ext ?_ (by dsimp only; omega)
    funext k
    dsimp only
    rw [if_neg (by omega)]
  | succ n ih =>
    rw [List.range_succ, List.foldl_append, ih, List.foldl_cons, List.foldl_nil]
    refine Prod.ext ?_ (by dsimp only; omega)
    funext k
    dsimp only [updateFn]
    by_cases hk : k = base + n
    · subst hk
      rw [if_pos rfl, if_pos (by omega)]
      have hbn : base + n - base = n := by omega
      rw [hbn]
    · rw [if_neg hk]
      by_cases hin : base ≤ k ∧ k < base + n
      · rw [if_pos hin, if_pos (by omega)]
      · rw [if_neg hin, if_neg (by omega)]

/-- The whole nested decode loop: after `h` rows the slice holds the
little-endian group `4*k` at every index `k < h*w`, and the byte cursor
is `4*(h*w)` — the cursor `j` stays in lock-step with the row-major
write index. -/
lemma decodeLoop_fold (w : Nat) (bytes : List Nat) (h : Nat) :
    (List.range h).foldl (fun st y =>
        (List.range w).foldl (fun st x =>
          (updateFn st.1 (y * w + x) (leGID bytes st.2), st.2 + 4)) st)
      ((fun _ => 0), 0) =
      (fun k => if k < h * w then leGID bytes (4 * k) else 0, 4 * (h * w)) := by
  induction h with
  | zero =>
    simp only [List.range_zero, List.foldl_nil]
    refine Prod.ext ?_ (by dsimp only; omega)
    funext k
    dsimp only
    rw [if_neg (by omega)]
  | succ n ih =>
    rw [List.range_succ, List.foldl_append, ih, List.foldl_cons, List.foldl_nil,
      innerRow_fold]
    have hsm : (n + 1) * w = n * w + w := Nat.succ_mul n w
    rw [hsm]
    generalize n * w = t
    refine Prod.ext ?_ (by dsimp only; omega)
    funext k
    dsimp only
    by_cases h1 : t ≤ k ∧ k < t + w
    · rw [if_pos h1, if_pos (by omega)]
      have : 4 * t + 4 * (k - t) = 4 * k := by omega
      rw [this]
    · rw [if_neg h1]
      by_cases h2 : k < t
      · rw [if_pos h2, if_pos (by omega)]
      · rw [if_neg h2, if_neg (by omega)]

/-- **C2** (Bit-Packed Tile Decoder success semantics): when the layer's
payload decodes and decompresses to exactly `Width*Height*4` bytes,
`Layer.Decode` succeeds with exactly `Width*Height` RIDs, and the RID at
output index `y*Width+x` is the little-endian value
`b0 + b1*2^8 + b2*2^16 + b3*2^24` of the `(y*Width+x)`-th consecutive
4-byte group of the decompressed bytes. -/
theorem layer_decode_le_spec (gzPipe zlPipe : List Nat → Except Err (List Nat)) (l : Layer)
    (bytes : List Nat) (hok : l.Data.decodeBytes gzPipe zlPipe = .ok bytes)
    (hlen : bytes.length = l.Width * l.Height * 4) :
    ∃ gids, l.Decode gzPipe zlPipe = .ok gids
      ∧ gids.length = l.Width * l.Height
      ∧ ∀ y x, y < l.Height → x < l.Width →
          gids.getD (y * l.Width + x) 0 =
            bytes.getD (4 * (y * l.Width + x)) 0
            + bytes.getD (4 * (y * l.Width + x) + 1) 0 * 2 ^ 8
            + bytes.getD (4 * (y * l.Width + x) + 2) 0 * 2 ^ 16
            + bytes.getD (4 * (y * l.Width + x) + 3) 0 * 2 ^ 24 := by
  have hdec : l.Decode gzPipe zlPipe =
      .ok ((List.range (l.Width * l.Height)).map
        (fun k => if k < l.Height * l.Width then leGID bytes (4 * k) else 0)) := by
    simp only [Layer.Decode, hok]
    rw [if_pos hlen]
    simp only [decodeLoop_fold]
  refine ⟨_, hdec, by simp, ?_⟩
  intro y x hy hx
  have hi : y * l.Width + x < l.Width * l.Height := by
    have h1 : y * l.Width + x < (y + 1) * l.Width := by rw [Nat.succ_mul]; omega
    have h2 : (y + 1) * l.Width ≤ l.Height * l.Width := Nat.mul_le_mul_right _ hy
    rw [Nat.mul_comm l.Width l.Height]
    omega
  have hi' : y * l.Width + x < l.Height * l.Width := by
    rw [Nat.mul_comm l.Height l.Width]; exact hi
  rw [List.getD_eq_getElem?_getD, List.getElem?_map, List.getElem?_range hi]
  simp only [Option.map_some', Option.getD_some]
  rw [if_pos hi']
  simp [leGID, Nat.shiftLeft_eq]

/-- Witness for `layer_decode_le_spec`: a 1×1 gzip layer whose pipeline
yields the four little-endian bytes of 300 decodes back to the single
RID 300. -/
theorem layer_decode_le_spec_witness :
    ∃ gids, Layer.Decode (constPipe [44, 1, 0, 0]) (constPipe [])
        { Width := 1, Height := 1, Data := { Compression := Gzip } } = .ok gids
      ∧ gids.length = 1 ∧ gids.getD 0 0 = 300 := by
  obtain ⟨gids, h1, h2, h3⟩ := layer_decode_le_spec (constPipe [44, 1, 0, 0]) (constPipe [])
    { Width := 1, Height := 1, Data := { Compression := Gzip } } [44, 1, 0, 0]
    (by decide) (by decide)
  refine ⟨gids, h1, h2, ?_⟩
  have h4 := h3 0 0 (by decide) (by decide)
  simpa using h4

/-- Every decoded layer the orchestrator loop produces is a fresh
`DecodedLayer{}` holding only tiles: `Tileset` nil, `Empty` false. -/
lemma decodeLayersLoop_fresh (gzPipe zlPipe : List Nat → Except Err (List Nat)) (m : Map) :
    ∀ ls out, decodeLayersLoop gzPipe zlPipe m ls = .ok out →
      ∀ d ∈ out, d.Tileset = none ∧ d.Empty = false := by
  intro ls
  induction ls with
  | nil =>
    intro out h d hd
    simp only [decodeLayersLoop, Except.ok.injEq] at h
    subst h
    simp at hd
  | cons l rest ih =>
    intro out h d hd
    cases h1 : l.Decode gzPipe zlPipe with
    | error e => simp [decodeLayersLoop, h1] at h
    | ok gids =>
      cases h2 : decodeLayerTiles m gids with
      | error e => simp [decodeLayersLoop, h1, h2] at h
      | ok tiles =>
        cases h3 : decodeLayersLoop gzPipe zlPipe m rest with
        | error e => simp [decodeLayersLoop, h1, h2, h3] at h
        | ok rests =>
          simp only [decodeLayersLoop, h1, h2, h3, Except.ok.injEq] at h
          subst h
          rcases List.mem_cons.mp hd with h4 | h4
          · subst h4; exact ⟨rfl, rfl⟩
          · exact ih rests h3 d h4

/-- Success shape of the per-layer tile loop: one tile per GID, each
from a successful `DecodeGID` of the GID at the same index. -/
lemma decodeLayerTiles_ok (m : Map) :
    ∀ gids tiles, decodeLayerTiles m gids = .ok tiles →
      tiles.length = gids.length ∧
      ∀ j, j < gids.length → m.DecodeGID (gids.getD j 0) = .ok (tiles.getD j NilTile) := by
  intro gids
  induction gids with
  | nil =>
    intro tiles h
    simp only [decodeLayerTiles, Except.ok.injEq] at h
    subst h
    exact ⟨rfl, fun j hj => absurd hj (by simp)⟩
  | cons g rest ih =>
    intro tiles h
    cases hg : m.DecodeGID g with
    | error e => simp [decodeLayerTiles, hg] at h
    | ok t =>
      cases hr : decodeLayerTiles m rest with
      | error e => simp [decodeLayerTiles, hg, hr] at h
      | ok ts =>
        simp only [decodeLayerTiles, hg, hr, Except.ok.injEq] at h
        subst h
        obtain ⟨hlen, hpt⟩ := ih ts hr
        refine ⟨by simp [hlen], ?_⟩
        intro j hj
        cases j with
        | zero => simpa using hg
        | succ n =>
          simp only [List.getD_cons_succ]
          exact hpt n (by simpa using hj)

/-- Failure shape of the per-layer tile loop: the error is the
`DecodeGID` error of the first unresolvable GID; every earlier GID
resolves. -/
lemma decodeLayerTiles_error (m : Map) :
    ∀ gids e, decodeLayerTiles m gids = .error e →
      ∃ j, j < gids.length ∧
        (∀ k, k < j → ∃ t, m.DecodeGID (gids.getD k 0) = .ok t) ∧
        m.DecodeGID (gids.getD j 0) = .error e := by
  intro gids
  induction gids with
  | nil => intro e h; simp [decodeLayerTiles] at h
  | cons g rest ih =>
    intro e h
    cases hg : m.DecodeGID g with
    | error e₂ =>
      simp only [decodeLayerTiles, hg, Except.error.injEq] at h
      subst h
      exact ⟨0, by simp, fun k hk => absurd hk (Nat.not_lt_zero k), by simpa using hg⟩
    | ok t =>
      cases hr : decodeLayerTiles m rest with
      | error e₂ =>
        simp only [decodeLayerTiles, hg, hr, Except.error.injEq] at h
        subst h
        obtain ⟨j, hj, hpre, hfail⟩ := ih _ hr
        refine ⟨j + 1, by simpa using Nat.succ_lt_succ hj, ?_, by simpa using hfail⟩
        intro k hk
        cases k with
        | zero => exact ⟨t, by simpa using hg⟩
        | succ n => simpa using hpre n (Nat.lt_of_succ_lt_succ hk)
      | ok ts => simp [decodeLayerTiles, hg, hr] at h

/-- Success shape of the orchestrator loop: one decoded layer per raw
layer, in order, each from a successful payload decode followed by a
successful resolution of all its GIDs. -/
lemma decodeLayersLoop_ok (gzPipe zlPipe : List Nat → Except Err (List Nat)) (m : Map) :
    ∀ ls out, decodeLayersLoop gzPipe zlPipe m ls = .ok out →
      out.length = ls.length ∧
      ∀ i, i < ls.length → ∃ gids tiles,
        (ls.getD i default).Decode gzPipe zlPipe = .ok gids ∧
        decodeLayerTiles m gids = .ok tiles ∧
        out.getD i default = { DecodedTiles := tiles } := by
  intro ls
  induction ls with
  | nil =>
    intro out h
    simp only [decodeLayersLoop, Except.ok.injEq] at h
    subst h
    exact ⟨rfl, fun i hi => absurd hi (by simp)⟩
  | cons l rest ih =>
    intro out h
    cases h1 : l.Decode gzPipe zlPipe with
    | error e => simp [decodeLayersLoop, h1] at h
    | ok gids =>
      cases h2 : decodeLayerTiles m gids with
      | error e => simp [decodeLayersLoop, h1, h2] at h
      | ok tiles =>
        cases h3 : decodeLayersLoop gzPipe zlPipe m rest with
        | error e => simp [decodeLayersLoop, h1, h2, h3] at h
        | ok rests =>
          simp only [decodeLayersLoop, h1, h2, h3, Except.ok.injEq] at h
          subst h
          obtain ⟨hlen, hpt⟩ := ih rests h3
          refine ⟨by simp [hlen], ?_⟩
          intro i hi
          cases i with
          | zero => exact ⟨gids, tiles, by simpa using h1, h2, by simp⟩
          | succ n =>
            obtain ⟨gids₂, tiles₂, ha, hb, hc⟩ := hpt n (by simpa using hi)
            exact ⟨gids₂, tiles₂, by simpa using ha, hb, by simpa using hc⟩

/-- Failure shape of the orchestrator loop: the surfaced error comes
from the first failing layer (either its payload decode or its first
unresolvable GID); every earlier layer decodes and resolves fully. -/
lemma decodeLayersLoop_error (gzPipe zlPipe : List Nat → Except Err (List Nat)) (m : Map) :
    ∀ ls e, decodeLayersLoop gzPipe zlPipe m ls = .error e →
      ∃ i, i < ls.length ∧
        (∀ k, k < i → ∃ gids tiles,
          (ls.getD k default).Decode gzPipe zlPipe = .ok gids ∧
          decodeLayerTiles m gids = .ok tiles) ∧
        ((ls.getD i default).Decode gzPipe zlPipe = .error e ∨
          ∃ gids, (ls.getD i default).Decode gzPipe zlPipe = .ok gids ∧
            decodeLayerTiles m gids = .error e) := by
  intro ls
  induction ls with
  | nil => intro e h; simp [decodeLayersLoop] at h
  | cons l rest ih =>
    intro e h
    cases h1 : l.Decode gzPipe zlPipe with
    | error e₂ =>
      simp only [decodeLayersLoop, h1, Except.error.injEq] at h
      subst h
      exact ⟨0, by simp, fun k hk => absurd hk (Nat.not_lt_zero k), Or.inl (by simpa using h1)⟩
    | ok gids =>
      cases h2 : decodeLayerTiles m gids with
      | error e₂ =>
        simp only [decodeLayersLoop, h1, h2, Except.error.injEq] at h
        subst h
        exact ⟨0, by simp, fun k hk => absurd hk (Nat.not_lt_zero k),
          Or.inr ⟨gids, by simpa using h1, h2⟩⟩
      | ok tiles =>
        cases h3 : decodeLayersLoop gzPipe zlPipe m rest with
        | error e₂ =>
          simp only [decodeLayersLoop, h1, h2, h3, Except.error.injEq] at h
          subst h
          obtain ⟨i, hi, hpre, hfail⟩ := ih _ h3
          refine ⟨i + 1, by simpa using Nat.succ_lt_succ hi, ?_, by simpa using hfail⟩
          intro k hk
          cases k with
          | zero => exact ⟨gids, tiles, by simpa using h1, h2⟩
          | succ n => simpa using hpre n (Nat.lt_of_succ_lt_succ hk)
        | ok rests => simp [decodeLayersLoop, h1, h2, h3] at h

/-- **C5**: the per-layer classification is discarded — every
`DecodedLayer` produced by `Map.DecodedLayers` has a nil `Tileset` and a
false `Empty` flag regardless of tile contents, and `Read` returns the
XML-decoded map unchanged (the classification computed during `Read` is
assigned only to a discarded local copy). -/
theorem classification_discarded (gzPipe zlPipe : List Nat → Except Err (List Nat)) (m : Map)
    (layers : List DecodedLayer) (hok : m.DecodedLayers gzPipe zlPipe = .ok layers) :
    (∀ d ∈ layers, d.Tileset = none ∧ d.Empty = false)
    ∧ Read gzPipe zlPipe (.ok m) = .ok m := by
  refine ⟨decodeLayersLoop_fresh gzPipe zlPipe m m.Layers layers hok, ?_⟩
  simp only [Read, hok]

/-- Witness for `classification_discarded`: the one-layer document whose
single tile is empty reads back unchanged, its decoded layer carrying
`Tileset = none` and `Empty = false` even though the layer is all
empty. -/
theorem classification_discarded_witness :
    Read (constPipe [0, 0, 0, 0]) (constPipe []) (.ok demoMap) = .ok demoMap
    ∧ demoMap.DecodedLayers (constPipe [0, 0, 0, 0]) (constPipe []) =
        .ok [{ DecodedTiles := [NilTile] }] :=
  ⟨(classification_discarded (constPipe [0, 0, 0, 0]) (constPipe []) demoMap
      [{ DecodedTiles := [NilTile] }] (by decide)).2, by decide⟩

/-- **C6** (orchestrator atomicity): on success `DecodedLayers` returns
one fully decoded layer per raw layer in document order; on failure it
surfaces the error of the first failing layer — every earlier layer
having decoded and resolved fully — and returns no layers; within one
layer the surfaced error is that of the first failing GID, in sequence
order, every earlier GID having resolved; and if every layer decodes and
resolves, the whole call succeeds. -/
theorem decodedLayers_atomic (gzPipe zlPipe : List Nat → Except Err (List Nat)) (m : Map) :
    (∀ out, m.DecodedLayers gzPipe zlPipe = .ok out →
      out.length = m.Layers.length ∧
      ∀ i, i < m.Layers.length → ∃ gids tiles,
        (m.Layers.getD i default).Decode gzPipe zlPipe = .ok gids ∧
        decodeLayerTiles m gids = .ok tiles ∧
        out.getD i default = { DecodedTiles := tiles })
    ∧ (∀ e, m.DecodedLayers gzPipe zlPipe = .error e →
        ∃ i, i < m.Layers.length ∧
          (∀ k, k < i → ∃ gids tiles,
            (m.Layers.getD k default).Decode gzPipe zlPipe = .ok gids ∧
            decodeLayerTiles m gids = .ok tiles) ∧
          ((m.Layers.getD i default).Decode gzPipe zlPipe = .error e ∨
            ∃ gids, (m.Layers.getD i default).Decode gzPipe zlPipe = .ok gids ∧
              decodeLayerTiles m gids = .error e))
    ∧ (∀ gids e, decodeLayerTiles m gids = .error e →
        ∃ j, j < gids.length ∧
          (∀ k, k < j → ∃ t, m.DecodeGID (gids.getD k 0) = .ok t) ∧
          m.DecodeGID (gids.getD j 0) = .error e)
    ∧ (∀ gids tiles, decodeLayerTiles m gids = .ok tiles →
        tiles.length = gids.length ∧
        ∀ j, j < gids.length → m.DecodeGID (gids.getD j 0) = .ok (tiles.getD j NilTile))
    ∧ ((∀ i, i < m.Layers.length → ∃ gids tiles,
          (m.Layers.getD i default).Decode gzPipe zlPipe = .ok gids ∧
          decodeLayerTiles m gids = .ok tiles) →
        ∃ out, m.DecodedLayers gzPipe zlPipe = .ok out) := by
  refine ⟨fun out h => decodeLayersLoop_ok gzPipe zlPipe m m.Layers out h,
    fun e h => decodeLayersLoop_error gzPipe zlPipe m m.Layers e h,
    fun gids e h => decodeLayerTiles_error m gids e h,
    fun gids tiles h => decodeLayerTiles_ok m gids tiles h,
    fun hall => ?_⟩
  cases hres : m.DecodedLayers gzPipe zlPipe with
  | ok out => exact ⟨out, rfl⟩
  | error e =>
    obtain ⟨i, hi, _, hfail⟩ := decodeLayersLoop_error gzPipe zlPipe m m.Layers e hres
    obtain ⟨gids, tiles, hga, hgb⟩ := hall i hi
    rcases hfail with hf | ⟨gids₂, hg₂, ht₂⟩
    · rw [hga] at hf
      exact Except.noConfusion hf
    · rw [hga] at hg₂
      injection hg₂ with h₂
      subst h₂
      rw [hgb] at ht₂
      exact Except.noConfusion ht₂

/-- Witness for `decodedLayers_atomic`: on the one-layer document the
orchestrator returns exactly one decoded layer. -/
theorem decodedLayers_atomic_witness :
    demoMap.DecodedLayers (constPipe [0, 0, 0, 0]) (constPipe []) =
      .ok [{ DecodedTiles := [NilTile] }]
    ∧ ([{ DecodedTiles := [NilTile] }] : List DecodedLayer).length = demoMap.Layers.length :=
  ⟨by decide,
    ((decodedLayers_atomic (constPipe [0, 0, 0, 0]) (constPipe []) demoMap).1
      [{ DecodedTiles := [NilTile] }] (by decide)).1⟩

/-- If every tile is the empty sentinel, the classifier loop started
with no tracked tileset reports `(nil, empty, not-multi)`. -/
lemma getTilesetLoop_allNil :
    ∀ tiles : List DecodedTile, (∀ t ∈ tiles, t.Nil = true) →
      getTilesetLoop tiles none = (none, true, false) := by
  intro tiles
  induction tiles with
  | nil => intro _; rfl
  | cons t rest ih =>
    intro h
    have hN : t.Nil = true := h t (List.mem_cons_self t rest)
    simp only [getTilesetLoop, hN, Bool.not_true, Bool.false_eq_true, if_false]
    exact ih fun u hu => h u (List.mem_cons_of_mem t hu)

/-- If every non-empty tile references tileset `ts`, the loop returns
`(ts, not-empty, not-multi)` — from a tracked `ts` unconditionally, and
from an untracked start as soon as some non-empty tile exists. -/
lemma getTilesetLoop_uniform (ts : Nat) :
    ∀ tiles : List DecodedTile, (∀ t ∈ tiles, t.Nil = false → t.Tileset = some ts) →
      getTilesetLoop tiles (some ts) = (some ts, false, false) ∧
      ((∃ t ∈ tiles, t.Nil = false) → getTilesetLoop tiles none = (some ts, false, false)) := by
  intro tiles
  induction tiles with
  | nil =>
    intro _
    exact ⟨rfl, fun ⟨t, ht, _⟩ => absurd ht (List.not_mem_nil t)⟩
  | cons t rest ih =>
    intro h
    have hrest := ih fun u hu hn => h u (List.mem_cons_of_mem t hu) hn
    cases hN : t.Nil with
    | true =>
      refine ⟨?_, ?_⟩
      · simp only [getTilesetLoop, hN, Bool.not_true, Bool.false_eq_true, if_false]
        exact hrest.1
      · rintro ⟨u, hu, hnil⟩
        have hu' : u ∈ rest := by
          rcases List.mem_cons.mp hu with h4 | h4
          · subst h4; rw [hN] at hnil; exact absurd hnil (by simp)
          · exact h4
        simp only [getTilesetLoop, hN, Bool.not_true, Bool.false_eq_true, if_false]
        exact hrest.2 ⟨u, hu', hnil⟩
    | false =>
      have hts : t.Tileset = some ts := h t (List.mem_cons_self t rest) hN
      refine ⟨?_, fun _ => ?_⟩
      · simp only [getTilesetLoop, hN, Bool.not_false, if_true, hts, ne_eq,
          not_true_eq_false, if_false, ite_self]
        exact hrest.1
      · simp only [getTilesetLoop, hN, Bool.not_false, if_true, hts]
        exact hrest.1

/-- Once a tileset `c` is tracked, the presence of any later non-empty
tile referencing a different tileset makes the loop report
`(not-empty, multi)`. -/
lemma getTilesetLoop_multiSome (c : Nat) :
    ∀ tiles : List DecodedTile, (∃ t ∈ tiles, t.Nil = false ∧ t.Tileset ≠ some c) →
      (getTilesetLoop tiles (some c)).2 = (false, true) := by
  intro tiles
  induction tiles with
  | nil => rintro ⟨t, ht, _⟩; exact absurd ht (List.not_mem_nil t)
  | cons t rest ih =>
    rintro ⟨u, hu, hnil, hne⟩
    cases hN : t.Nil with
    | true =>
      have hu' : u ∈ rest := by
        rcases List.mem_cons.mp hu with h4 | h4
        · subst h4; rw [hN] at hnil; exact absurd hnil (by simp)
        · exact h4
      simp only [getTilesetLoop, hN, Bool.not_true, Bool.false_eq_true, if_false]
      exact ih ⟨u, hu', hnil, hne⟩
    | false =>
      by_cases hEq : t.Tileset = some c
      · have hu' : u ∈ rest := by
          rcases List.mem_cons.mp hu with h4 | h4
          · subst h4; exact absurd hEq hne
          · exact h4
        simp only [getTilesetLoop, hN, Bool.not_false, if_true, hEq, ne_eq,
          not_true_eq_false, Bool.false_eq_true, if_false, ite_self]
        exact ih ⟨u, hu', hnil, hne⟩
      · have hcond : some c ≠ t.Tileset := fun hh => hEq hh.symm
        simp only [getTilesetLoop, hN, Bool.not_false, if_true, if_pos hcond]

/-- From an untracked start, two non-empty tiles with distinct tileset
references (all non-empty tiles carrying one) make the loop report
`(not-empty, multi)`. -/
lemma getTilesetLoop_multi :
    ∀ tiles : List DecodedTile, (∀ t ∈ tiles, t.Nil = false → t.Tileset ≠ none) →
      ∀ t₁, t₁ ∈ tiles → ∀ t₂, t₂ ∈ tiles → t₁.Nil = false → t₂.Nil = false →
      t₁.Tileset ≠ t₂.Tileset →
      (getTilesetLoop tiles none).2 = (false, true) := by
  intro tiles
  induction tiles with
  | nil => intro _ t₁ h1 _ _ _ _ _; exact absurd h1 (List.not_mem_nil t₁)
  | cons t rest ih =>
    intro hwf t₁ ht₁ t₂ ht₂ hn1 hn2 hne
    cases hN : t.Nil with
    | true =>
      have h1 : t₁ ∈ rest := by
        rcases List.mem_cons.mp ht₁ with h4 | h4
        · subst h4; rw [hN] at hn1; exact absurd hn1 (by simp)
        · exact h4
      have h2 : t₂ ∈ rest := by
        rcases List.mem_cons.mp ht₂ with h4 | h4
        · subst h4; rw [hN] at hn2; exact absurd hn2 (by simp)
        · exact h4
      simp only [getTilesetLoop, hN, Bool.not_true, Bool.false_eq_true, if_false]
      exact ih (fun u hu hn => hwf u (List.mem_cons_of_mem t hu) hn) t₁ h1 t₂ h2 hn1 hn2 hne
    | false =>
      obtain ⟨c, hc⟩ : ∃ c, t.Tileset = some c := by
        cases hopt : t.Tileset with
        | none => exact absurd hopt (hwf t (List.mem_cons_self t rest) hN)
        | some c => exact ⟨c, rfl⟩
      have hwit : ∃ u, u ∈ rest ∧ u.Nil = false ∧ u.Tileset ≠ some c := by
        by_cases h1t : t₁.Tileset = some c
        · have h2t : t₂.Tileset ≠ some c := fun hh => hne (h1t.trans hh.symm)
          have ht₂' : t₂ ∈ rest := by
            rcases List.mem_cons.mp ht₂ with h4 | h4
            · subst h4; exact absurd hc h2t
            · exact h4
          exact ⟨t₂, ht₂', hn2, h2t⟩
        · have ht₁' : t₁ ∈ rest := by
            rcases List.mem_cons.mp ht₁ with h4 | h4
            · subst h4; exact absurd hc h1t
            · exact h4
          exact ⟨t₁, ht₁', hn1, h1t⟩
      obtain ⟨u, hu, hnil, hune⟩ := hwit
      simp only [getTilesetLoop, hN, Bool.not_false, if_true, hc]
      exact getTilesetLoop_multiSome c rest ⟨u, hu, hnil, hune⟩

/-- A successful scan always returns a tile referencing a tileset. -/
lemma scanTilesets_ok_tileset (ts : List Tileset) (gid u : Nat) :
    ∀ n t, scanTilesets ts gid u n = .ok t → t.Tileset ≠ none := by
  intro n
  induction n with
  | zero => intro t h; exact Except.noConfusion h
  | succ i ih =>
    intro t h
    simp only [scanTilesets] at h
    by_cases hc : (ts.getD i default).FirstGID ≤ u
    · rw [if_pos hc] at h
      injection h with h2
      subst h2
      simp
    · rw [if_neg hc] at h
      exact ih t h

/-- **C9** (Layer Classifier contract): over a decoded tile sequence,
`getTileset` reports `(nil tileset, empty, not multi)` when no non-empty
tile occurs; the shared tileset with `empty = false` and `multi = false`
when at least one non-empty tile occurs and all of them reference one
tileset; and `(empty = false, multi = true)` — no uniform tileset
designated — when two non-empty tiles reference distinct tilesets (the
first tuple component then being only the internally tracked first
tileset, which `Read` ignores).  Final conjunct: the tile sequences the
GID Resolver produces always satisfy the premise that non-empty tiles
carry a tileset reference. -/
theorem getTileset_contract (m : Map) (l : DecodedLayer) :
    ((∀ t ∈ l.DecodedTiles, t.Nil = true) → getTileset m l = (none, true, false))
    ∧ (∀ ts : Nat, (∀ t ∈ l.DecodedTiles, t.Nil = false → t.Tileset = some ts) →
        (∃ t ∈ l.DecodedTiles, t.Nil = false) →
        getTileset m l = (some ts, false, false))
    ∧ ((∀ t ∈ l.DecodedTiles, t.Nil = false → t.Tileset ≠ none) →
        ∀ t₁, t₁ ∈ l.DecodedTiles → ∀ t₂, t₂ ∈ l.DecodedTiles →
        t₁.Nil = false → t₂.Nil = false → t₁.Tileset ≠ t₂.Tileset →
        (getTileset m l).2 = (false, true))
    ∧ (∀ g t, m.DecodeGID g = .ok t → t.Nil = false → t.Tileset ≠ none) := by
  refine ⟨fun h => getTilesetLoop_allNil l.DecodedTiles h,
    fun ts h hex => (getTilesetLoop_uniform ts l.DecodedTiles h).2 hex,
    fun hwf t₁ h1 t₂ h2 hn1 hn2 hne =>
      getTilesetLoop_multi l.DecodedTiles hwf t₁ h1 t₂ h2 hn1 hn2 hne,
    fun g t h hn => ?_⟩
  rw [Map.DecodeGID] at h
  by_cases hg : g = 0
  · rw [if_pos hg] at h
    injection h with h2
    subst h2
    exact absurd hn (by simp [NilTile])
  · rw [if_neg hg] at h
    exact scanTilesets_ok_tileset m.Tilesets g (umaskedGID g) m.Tilesets.length t h

/-- Witness for `getTileset_contract`: an all-empty layer classifies as
empty; a layer holding tiles of tilesets 0 and 1 classifies as
multi-tileset with the empty flag false. -/
theorem getTileset_contract_witness :
    getTileset demoMap { DecodedTiles := [NilTile] } = (none, true, false)
    ∧ (getTileset demoMap
        { DecodedTiles := [{ Tileset := some 0 }, { Tileset := some 1 }] }).2 =
        (false, true) :=
  ⟨(getTileset_contract demoMap { DecodedTiles := [NilTile] }).1 (by decide),
    (getTileset_contract demoMap
        { DecodedTiles := [{ Tileset := some 0 }, { Tileset := some 1 }] }).2.2.1
      (by decide) { Tileset := some 0 } (by decide) { Tileset := some 1 } (by decide)
      rfl rfl (by decide)⟩

/-- Success shape of the point loop: one point per part, in input
order, each from a successful per-part parse. -/
lemma decodePointsLoop_ok :
    ∀ parts pts, decodePointsLoop parts = .ok pts →
      pts.length = parts.length ∧
      ∀ i, i < parts.length → parsePart (parts.getD i []) = .ok (pts.getD i default) := by
  intro parts
  induction parts with
  | nil =>
    intro pts h
    simp only [decodePointsLoop, Except.ok.injEq] at h
    subst h
    exact ⟨rfl, fun i hi => absurd hi (by simp)⟩
  | cons part rest ih =>
    intro pts h
    simp only [decodePointsLoop] at h
    by_cases hc : (splitOnChar ',' part).length ≠ 2
    · rw [if_pos hc] at h
      exact Except.noConfusion h
    · rw [if_neg hc] at h
      cases hx : atoi ((splitOnChar ',' part)[0]?.getD []) with
      | error e => simp [hx] at h
      | ok x =>
        cases hy : atoi ((splitOnChar ',' part)[1]?.getD []) with
        | error e => simp [hx, hy] at h
        | ok y =>
          cases hr : decodePointsLoop rest with
          | error e => simp [hx, hy, hr] at h
          | ok qts =>
            simp only [List.getD_eq_getElem?_getD, hx, hy, hr, Except.ok.injEq] at h
            subst h
            obtain ⟨hlen, hpt⟩ := ih qts hr
            refine ⟨by simp [hlen], ?_⟩
            intro i hi
            cases i with
            | zero =>
              simp only [List.getD_cons_zero, parsePart]
              rw [if_neg hc]
              simp [hx, hy]
            | succ n =>
              simp only [List.getD_cons_succ]
              exact hpt n (by simpa using hi)

/-- Failure shape of the point loop: the surfaced error is that of the
first failing part — `InvalidPointsField` for a wrong comma count, the
propagated parse error otherwise — every earlier part parsing fine. -/
lemma decodePointsLoop_error :
    ∀ parts e, decodePointsLoop parts = .error e →
      ∃ j, j < parts.length ∧
        (∀ k, k < j → ∃ pt, parsePart (parts.getD k []) = .ok pt) ∧
        parsePart (parts.getD j []) = .error e := by
  intro parts
  induction parts with
  | nil => intro e h; simp [decodePointsLoop] at h
  | cons part rest ih =>
    intro e h
    simp only [decodePointsLoop] at h
    by_cases hc : (splitOnChar ',' part).length ≠ 2
    · rw [if_pos hc] at h
      injection h with h2
      subst h2
      refine ⟨0, by simp, fun k hk => absurd hk (Nat.not_lt_zero k), ?_⟩
      simp only [List.getD_cons_zero, parsePart]
      rw [if_pos hc]
    · rw [if_neg hc] at h
      cases hx : atoi ((splitOnChar ',' part)[0]?.getD []) with
      | error e₂ =>
        simp only [List.getD_eq_getElem?_getD, hx, Except.error.injEq] at h
        subst h
        refine ⟨0, by simp, fun k hk => absurd hk (Nat.not_lt_zero k), ?_⟩
        simp only [List.getD_cons_zero, parsePart]
        rw [if_neg hc]
        simp [hx]
      | ok x =>
        cases hy : atoi ((splitOnChar ',' part)[1]?.getD []) with
        | error e₂ =>
          simp only [List.getD_eq_getElem?_getD, hx, hy, Except.error.injEq] at h
          subst h
          refine ⟨0, by simp, fun k hk => absurd hk (Nat.not_lt_zero k), ?_⟩
          simp only [List.getD_cons_zero, parsePart]
          rw [if_neg hc]
          simp [hx, hy]
        | ok y =>
          cases hr : decodePointsLoop rest with
          | error e₂ =>
            simp only [List.getD_eq_getElem?_getD, hx, hy, hr, Except.error.injEq] at h
            subst h
            obtain ⟨j, hj, hpre, hfail⟩ := ih _ hr
            refine ⟨j + 1, by simpa using Nat.succ_lt_succ hj, ?_, by simpa using hfail⟩
            intro k hk
            cases k with
            | zero =>
              refine ⟨{ X := x, Y := y }, ?_⟩
              simp only [List.getD_cons_zero, parsePart]
              rw [if_neg hc]
              simp [hx, hy]
            | succ n => simpa using hpre n (Nat.lt_of_succ_lt_succ hk)
          | ok qts => simp [hx, hy, hr] at h

/-- **C10** (Polygon Point Decoder contract): `Polygon.Decode` splits
the points string on the space character; on success it yields one
point per part in input order, each part having split on a comma into
exactly two substrings that parse as integers; on failure the error is
that of the first failing part — `InvalidPointsField` for a wrong comma
count, the underlying integer-parse error otherwise.  Decoding
`"0,0 10,0 10,10"` yields `(0,0), (10,0), (10,10)` in that order, and
decoding `"0,0 10"` fails with `InvalidPointsField`. -/
theorem polygon_decode_contract (p : Polygon) :
    (∀ pts, p.Decode = .ok pts →
      pts.length = (splitOnChar ' ' p.Points.data).length ∧
      ∀ i, i < (splitOnChar ' ' p.Points.data).length →
        parsePart ((splitOnChar ' ' p.Points.data).getD i []) = .ok (pts.getD i default))
    ∧ (∀ e, p.Decode = .error e →
        ∃ j, j < (splitOnChar ' ' p.Points.data).length ∧
          (∀ k, k < j → ∃ pt, parsePart ((splitOnChar ' ' p.Points.data).getD k []) = .ok pt) ∧
          parsePart ((splitOnChar ' ' p.Points.data).getD j []) = .error e)
    ∧ Polygon.Decode { Points := "0,0 10,0 10,10" } =
        .ok [{ X := 0, Y := 0 }, { X := 10, Y := 0 }, { X := 10, Y := 10 }]
    ∧ Polygon.Decode { Points := "0,0 10" } = .error .InvalidPointsField :=
  ⟨fun pts h => decodePointsLoop_ok (splitOnChar ' ' p.Points.data) pts h,
    fun e h => decodePointsLoop_error (splitOnChar ' ' p.Points.data) e h,
    by decide, by decide⟩

/-- Witness for `polygon_decode_contract`: the three-part example
yields exactly one point per space-separated part. -/
theorem polygon_decode_contract_witness :
    ([{ X := 0, Y := 0 }, { X := 10, Y := 0 }, { X := 10, Y := 10 }] : List Point).length =
      (splitOnChar ' ' ("0,0 10,0 10,10".data)).length :=
  ((polygon_decode_contract { Points := "0,0 10,0 10,10" }).1
    [{ X := 0, Y := 0 }, { X := 10, Y := 0 }, { X := 10, Y := 10 }] (by decide)).1

end Tmx
